import Mathlib

/-!
Verification of the customer/address record store of the qwipo backend.

The repository contains two variants of the same service:
* `src/index.js` — the in-memory variant: global arrays `customers` and
  `addresses` plus counters `nextCustomerId` / `nextAddressId`;
* `src/unnamed/part_000` — the SQLite variant: tables `customers` and
  `addresses` with an `ON DELETE CASCADE` foreign key.

Both are embedded below over a common `Store` state.  Functions prefixed
with `sql` model the SQLite variant's routes; unprefixed functions model
the in-memory variant's routes.  Field validation (express-validator) is
performed before the modelled logic runs, so inputs are taken as already
validated; HTTP statuses are recovered through `Outcome.httpStatus`.
-/

/-- A stored customer row (`customers` array / table). -/
structure Customer where
  id : Nat
  firstName : String
  lastName : String
  phoneNumber : String
  createdAt : String
deriving DecidableEq, Repr

/-- A stored address row (`addresses` array / table). -/
structure Address where
  id : Nat
  customerId : Nat
  addressLine : String
  city : String
  state : String
  pinCode : String
  isPrimary : Bool
deriving DecidableEq, Repr

/-- The whole mutable state of the service: the two collections and the two
id counters (`nextCustomerId`, `nextAddressId`; for the SQLite variant these
play the role of the AUTOINCREMENT counters). -/
structure Store where
  customers : List Customer
  addresses : List Address
  nextCustomerId : Nat
  nextAddressId : Nat
deriving DecidableEq, Repr

/-- The state at server start: both collections empty, both counters 1. -/
def initialStore : Store := ⟨[], [], 1, 1⟩

/-- Customer fields of a request body (`req.body.customer`). -/
structure CustomerInput where
  firstName : String
  lastName : String
  phoneNumber : String
deriving DecidableEq, Repr

/-- Address fields of a request body.  A JavaScript `isPrimary` that is
absent or `false` (the code always reads it as `isPrimary || ...`) is
modelled as `false`. -/
structure AddressInput where
  addressLine : String
  city : String
  state : String
  pinCode : String
  isPrimary : Bool
deriving DecidableEq, Repr

/-- Route outcomes, abstracting the JSON responses the handlers send. -/
inductive Outcome where
  | created (id : Nat)
  | ok
  | notFound
  | conflict
  | lastAddress
deriving DecidableEq, Repr

/-- The HTTP status each outcome is sent with. -/
def Outcome.httpStatus : Outcome → Nat
  | .created _ => 201
  | .ok => 200
  | .notFound => 404
  | .conflict => 400
  | .lastAddress => 400

/-- The address records built by `addresses.map` in the in-memory
create-customer handler (index.js lines 85-93): each gets the next id and
`isPrimary: address.isPrimary || (index === 0)` — the first supplied
address defaults to primary. -/
def buildAddressesFrom (nextId custId idx : Nat) : List AddressInput → List Address
  | [] => []
  | a :: rest =>
    { id := nextId, customerId := custId, addressLine := a.addressLine,
      city := a.city, state := a.state, pinCode := a.pinCode,
      isPrimary := a.isPrimary || idx == 0 }
      :: buildAddressesFrom (nextId + 1) custId (idx + 1) rest

/-- The computed address list of the in-memory create-customer handler. -/
def buildAddresses (nextId custId : Nat) (l : List AddressInput) : List Address :=
  buildAddressesFrom nextId custId 0 l

/-- In-memory `POST /api/customers` (index.js lines 60-105).  Rejects a
duplicate phone number, then pushes the new customer and builds the
address records.  NOTE (faithful to the source): line 64 destructures
`const { customer, addresses } = req.body`, so the local `addresses`
shadows the global store array; line 95 `addresses.push(...customerAddresses)`
therefore appends to the request body, and the store's address list is
left unchanged.  The global counter `nextAddressId` is still advanced by
the `map` at line 86. -/
def createCustomer (st : Store) (c : CustomerInput) (addrs : List AddressInput)
    (now : String) : Outcome × Store :=
  if (st.customers.find? (fun x => x.phoneNumber == c.phoneNumber)).isSome then
    (.conflict, st)
  else
    let newCustomer : Customer :=
      { id := st.nextCustomerId, firstName := c.firstName, lastName := c.lastName,
        phoneNumber := c.phoneNumber, createdAt := now }
    let customerAddresses := buildAddresses st.nextAddressId newCustomer.id addrs
    (.created newCustomer.id,
      { customers := st.customers ++ [newCustomer]
        addresses := st.addresses
        nextCustomerId := st.nextCustomerId + 1
        nextAddressId := st.nextAddressId + customerAddresses.length })

/-- One step of the clearing pass of the in-memory handlers. -/
def clearOne (cid : Nat) (x : Address) : Address :=
  if x.customerId == cid then { x with isPrimary := false } else x

/-- Clearing pass of the in-memory handlers: `addresses.forEach(addr => {
if (addr.customerId === customerId) addr.isPrimary = false })`. -/
def clearPrimaryFor (cid : Nat) (l : List Address) : List Address :=
  l.map (clearOne cid)

/-- In-memory `POST /api/customers/:id/addresses` (index.js lines 236-287).
404 when the customer is missing; otherwise the address becomes primary
when requested or when the customer has no addresses yet, in which case
every existing address of the customer is cleared first. -/
def addAddress (st : Store) (customerId : Nat) (a : AddressInput) : Outcome × Store :=
  if (st.customers.find? (fun c => c.id == customerId)).isSome then
    let customerAddresses := st.addresses.filter (fun x => x.customerId == customerId)
    let shouldBePrimary := a.isPrimary || customerAddresses.length == 0
    let base := if shouldBePrimary then clearPrimaryFor customerId st.addresses else st.addresses
    let newAddress : Address :=
      { id := st.nextAddressId, customerId := customerId, addressLine := a.addressLine,
        city := a.city, state := a.state, pinCode := a.pinCode, isPrimary := shouldBePrimary }
    (.created newAddress.id,
      { st with addresses := base ++ [newAddress], nextAddressId := st.nextAddressId + 1 })
  else
    (.notFound, st)

/-- Replacement at the index found by `findIndex(a => a.id === addressId)`:
the first element whose id matches is rewritten, the rest kept. -/
def replaceFirstAddr (aid : Nat) (f : Address → Address) : List Address → List Address
  | [] => []
  | x :: xs => if x.id == aid then f x :: xs else x :: replaceFirstAddr aid f xs

/-- `splice(addressIndex, 1)`: drop the first element whose id matches. -/
def removeFirstAddr (aid : Nat) : List Address → List Address
  | [] => []
  | x :: xs => if x.id == aid then xs else x :: removeFirstAddr aid xs

/-- In-memory `PUT /api/addresses/:id` (index.js lines 290-331).  404 when
the address is missing.  When `isPrimary` is truthy every address of the
same customer is cleared first; the found element is then rewritten with
the supplied fields and `isPrimary: isPrimary || false`, keeping its id
and customerId. -/
def updateAddress (st : Store) (addressId : Nat) (a : AddressInput) : Outcome × Store :=
  match st.addresses.find? (fun x => x.id == addressId) with
  | none => (.notFound, st)
  | some old =>
    let base := if a.isPrimary then clearPrimaryFor old.customerId st.addresses
                else st.addresses
    let updated := replaceFirstAddr addressId
      (fun x => { x with addressLine := a.addressLine, city := a.city, state := a.state,
                         pinCode := a.pinCode, isPrimary := a.isPrimary }) base
    (.ok, { st with addresses := updated })

/-- In-memory `DELETE /api/addresses/:id` (index.js lines 334-359).  404
when missing; 400 when the owning customer has at most one address;
otherwise the found element is spliced out. -/
def deleteAddress (st : Store) (addressId : Nat) : Outcome × Store :=
  match st.addresses.find? (fun x => x.id == addressId) with
  | none => (.notFound, st)
  | some address =>
    let customerAddresses := st.addresses.filter (fun x => x.customerId == address.customerId)
    if customerAddresses.length ≤ 1 then
      (.lastAddress, st)
    else
      (.ok, { st with addresses := removeFirstAddr addressId st.addresses })

/-- `splice(customerIndex, 1)` on the customers array. -/
def removeFirstCustomer (cid : Nat) : List Customer → List Customer
  | [] => []
  | x :: xs => if x.id == cid then xs else x :: removeFirstCustomer cid xs

/-- In-memory `DELETE /api/customers/:id` (index.js lines 362-391).  404
when missing; otherwise the customer is spliced out and every address
whose customerId matches is removed (indices collected, then spliced in
reverse — i.e. all matches go, order of the rest preserved). -/
def deleteCustomer (st : Store) (customerId : Nat) : Outcome × Store :=
  if (st.customers.find? (fun c => c.id == customerId)).isSome then
    (.ok, { st with
      customers := removeFirstCustomer customerId st.customers
      addresses := st.addresses.filter (fun a => !(a.customerId == customerId)) })
  else
    (.notFound, st)

/-- In-memory `DELETE /api/cleanup/all` (index.js lines 406-416): both
collections emptied and both counters reset to 1. -/
def cleanupAll (_st : Store) : Outcome × Store :=
  (.ok, { customers := [], addresses := [], nextCustomerId := 1, nextAddressId := 1 })

/-- Address rows inserted by the SQLite create-customer handler
(part_000 lines 111-129): `isPrimary || false`, with NO first-address
default, each row getting the next id. -/
def buildSqlAddresses (nextId custId : Nat) : List AddressInput → List Address
  | [] => []
  | a :: rest =>
    { id := nextId, customerId := custId, addressLine := a.addressLine,
      city := a.city, state := a.state, pinCode := a.pinCode,
      isPrimary := a.isPrimary }
      :: buildSqlAddresses (nextId + 1) custId rest

/-- SQLite `POST /api/customers` (part_000 lines 85-133): BEGIN; the
customer INSERT fails on a duplicate phone (UNIQUE constraint) and the
transaction is rolled back; otherwise each address row is inserted with
`isPrimary || false` and the transaction commits.  The model covers the
rollback path and the committed success path (with an empty address list
the source never issues the COMMIT nor a response; that hang is not
modelled — the claims below only exercise non-empty lists). -/
def sqlCreateCustomer (st : Store) (c : CustomerInput) (addrs : List AddressInput)
    (now : String) : Outcome × Store :=
  if (st.customers.find? (fun x => x.phoneNumber == c.phoneNumber)).isSome then
    (.conflict, st)
  else
    let cid := st.nextCustomerId
    (.created cid,
      { customers := st.customers ++
          [{ id := cid, firstName := c.firstName, lastName := c.lastName,
             phoneNumber := c.phoneNumber, createdAt := now }]
        addresses := st.addresses ++ buildSqlAddresses st.nextAddressId cid addrs
        nextCustomerId := cid + 1
        nextAddressId := st.nextAddressId + addrs.length })

/-- SQLite `POST /api/customers/:id/addresses` (part_000 lines 224-247):
a bare INSERT with `isPrimary || false` — no existence check on the
customer, no clearing of the customer's other primary flags, and no
first-address default. -/
def sqlAddAddress (st : Store) (customerId : Nat) (a : AddressInput) : Outcome × Store :=
  (.created st.nextAddressId,
    { st with
      addresses := st.addresses ++
        [{ id := st.nextAddressId, customerId := customerId, addressLine := a.addressLine,
           city := a.city, state := a.state, pinCode := a.pinCode, isPrimary := a.isPrimary }]
      nextAddressId := st.nextAddressId + 1 })

/-- SQLite `DELETE /api/customers/:id` (part_000 lines 302-319): 404 when
the customer is missing, otherwise `DELETE FROM customers WHERE id = ?`.
The schema declares `ON DELETE CASCADE` (lines 50-61), but sqlite3 keeps
foreign-key enforcement OFF on a connection unless it runs
`PRAGMA foreign_keys = ON`, which this code never does — so the delete
removes only the customer row and every address row of that customer
stays stored. -/
def sqlDeleteCustomer (st : Store) (customerId : Nat) : Outcome × Store :=
  if (st.customers.find? (fun c => c.id == customerId)).isSome then
    (.ok, { st with customers := st.customers.filter (fun c => !(c.id == customerId)) })
  else
    (.notFound, st)

/-- Number of stored addresses of customer `cid` that carry the primary
flag. -/
def countPrimaryIn (l : List Address) (cid : Nat) : Nat :=
  (l.filter fun a => a.customerId == cid && a.isPrimary).length

/-- `countPrimaryIn` read off a whole store state. -/
def primaryCount (st : Store) (cid : Nat) : Nat :=
  countPrimaryIn st.addresses cid

/-- States of the in-memory variant reachable by any sequence of the five
mutating operations named in the spec's invariant. -/
inductive Reachable : Store → Prop
  | init : Reachable initialStore
  | create (c : CustomerInput) (addrs : List AddressInput) (now : String) :
      Reachable st → Reachable (createCustomer st c addrs now).2
  | add (cid : Nat) (a : AddressInput) :
      Reachable st → Reachable (addAddress st cid a).2
  | update (aid : Nat) (a : AddressInput) :
      Reachable st → Reachable (updateAddress st aid a).2
  | delAddr (aid : Nat) :
      Reachable st → Reachable (deleteAddress st aid).2
  | delCust (cid : Nat) :
      Reachable st → Reachable (deleteCustomer st cid).2

/-- Contribution of a single address to `countPrimaryIn`. -/
def primContrib (a : Address) (cid : Nat) : Nat :=
  if a.customerId == cid && a.isPrimary then 1 else 0

/-- The sortable customer fields named by `sortBy` in `GET /api/customers`. -/
inductive SortField where
  | firstName
  | lastName
  | phoneNumber
  | createdAt
deriving DecidableEq, Repr

/-- The `order` query parameter: ASC, or the DESC default. -/
inductive SortOrder where
  | asc
  | desc
deriving DecidableEq, Repr

/-- The value `a[sortBy]` the comparator reads.  `createdAt` is stored as a
fixed-width `YYYY-MM-DD HH:mm:ss` string, so the moment conversion of the
route orders it exactly like the string itself. -/
def keyOf : SortField → Customer → String
  | .firstName, c => c.firstName
  | .lastName, c => c.lastName
  | .phoneNumber, c => c.phoneNumber
  | .createdAt, c => c.createdAt

/-- Lexicographic `<` on character lists: the order JavaScript's `<`/`>`
give two strings (code-unit-wise comparison; a strict prefix is smaller). -/
def charsLt : List Char → List Char → Bool
  | _, [] => false
  | [], _ :: _ => true
  | a :: as, b :: bs => decide (a < b) || (a == b && charsLt as bs)

/-- JavaScript string comparison `a < b`. -/
def strLtJs (a b : String) : Bool := charsLt a.data b.data

/-- The route's comparator at index.js lines 149-163 returns 1 or -1 and
never 0; `cmpKeepsOrder f o a b` is true iff it returns -1 on `(a, b)`,
i.e. iff the sort may keep `a` in front of `b`:
ASC `a > b ? 1 : -1` and DESC `a < b ? 1 : -1`. -/
def cmpKeepsOrder (f : SortField) (o : SortOrder) (a b : Customer) : Bool :=
  match o with
  | .asc => !(strLtJs (keyOf f b) (keyOf f a))
  | .desc => !(strLtJs (keyOf f a) (keyOf f b))

/-- `cmpKeepsOrder` as a relation, to drive the modelled sort. -/
def keepsOrder (f : SortField) (o : SortOrder) (a b : Customer) : Prop :=
  cmpKeepsOrder f o a b = true

instance (f : SortField) (o : SortOrder) : DecidableRel (keepsOrder f o) :=
  fun a b => inferInstanceAs (Decidable (cmpKeepsOrder f o a b = true))

/-- Model of `filteredCustomers.sort(comparator)`: a comparison sort that
puts `a` before `b` whenever the comparator answers -1 on `(a, b)`.  On
two-element arrays every comparison sort behaves this way, so the
concrete runs below are engine-independent. -/
def sortCustomers (f : SortField) (o : SortOrder) (l : List Customer) : List Customer :=
  List.insertionSort (keepsOrder f o) l

/-- Parsed query string of `GET /api/customers`; a filter that is absent
or empty (falsy in the route's `if (city || ...)` tests) is `none`. -/
structure ListQuery where
  page : Nat
  limit : Nat
  sortBy : SortField
  order : SortOrder
  city : Option String
  state : Option String
  pinCode : Option String
deriving DecidableEq, Repr

/-- `needle` is a prefix of `hay` (character lists). -/
def charsStartWith : List Char → List Char → Bool
  | [], _ => true
  | _ :: _, [] => false
  | a :: as, b :: bs => a == b && charsStartWith as bs

/-- `String.prototype.includes`: `needle` occurs inside `hay`. -/
def charsHasSub : List Char → List Char → Bool
  | [], needle => needle.isEmpty
  | x :: rest, needle => charsStartWith needle (x :: rest) || charsHasSub rest needle

/-- `hay.includes(needle)` on strings. -/
def strIncludes (hay needle : String) : Bool :=
  charsHasSub hay.data needle.data

/-- `hay.toLowerCase().includes(needle.toLowerCase())`. -/
def strIncludesCI (hay needle : String) : Bool :=
  strIncludes hay.toLower needle.toLower

/-- One address against the supplied filters (index.js lines 138-144):
city and state are case-insensitive substring matches, pinCode a
case-sensitive one. -/
def addressMatchesQuery (q : ListQuery) (addr : Address) : Bool :=
  (match q.city with
   | none => true
   | some v => strIncludesCI addr.city v) &&
  (match q.state with
   | none => true
   | some v => strIncludesCI addr.state v) &&
  (match q.pinCode with
   | none => true
   | some v => strIncludes addr.pinCode v)

/-- A customer passes when some of its addresses matches all filters. -/
def customerMatches (st : Store) (q : ListQuery) (c : Customer) : Bool :=
  (st.addresses.filter fun a => a.customerId == c.id).any (addressMatchesQuery q)

/-- In-memory `GET /api/customers` (index.js lines 125-180).  When no
filter is given, `filteredCustomers` IS the global `customers` array, and
`Array.prototype.sort` reorders it in place — so the sorted order is
written back into the store; with a filter present, `filter` copies and
the store is untouched.  The page is `slice(offset, offset + limit)` with
`offset = (page - 1) * limit` (pages below 1 are not modelled). -/
def listCustomers (st : Store) (q : ListQuery) : List Customer × Store :=
  let useFilter := q.city.isSome || q.state.isSome || q.pinCode.isSome
  let filtered := if useFilter then st.customers.filter (customerMatches st q) else st.customers
  let sorted := sortCustomers q.sortBy q.order filtered
  let page := (sorted.drop ((q.page - 1) * q.limit)).take q.limit
  (page, if useFilter then st else { st with customers := sorted })

/-- The claim that `AddAddress` enforced primary exclusivity: the route
answered 201 with the fresh id, some stored address carries the fresh id,
the customer and the primary flag, and every other stored address of that
customer has the flag cleared. -/
def AddAddressExclusive (st : Store) (cid : Nat) (a : AddressInput) : Prop :=
  (addAddress st cid a).1 = Outcome.created st.nextAddressId ∧
  (∃ x ∈ (addAddress st cid a).2.addresses,
      x.id = st.nextAddressId ∧ x.customerId = cid ∧ x.isPrimary = true) ∧
  (∀ x ∈ (addAddress st cid a).2.addresses,
      x.customerId = cid → x.id ≠ st.nextAddressId → x.isPrimary = false)

/-- Sample request data used in the concrete runs below. -/
def custInA : CustomerInput := ⟨"Asha", "Rao", "1111111111"⟩

/-- A second customer payload, same first name, different phone. -/
def custInB : CustomerInput := ⟨"Asha", "Iyer", "2222222222"⟩

/-- A non-primary address payload. -/
def addrIn1 : AddressInput := ⟨"12 MG Road", "Hyderabad", "Telangana", "500001", false⟩

/-- Another non-primary address payload. -/
def addrIn2 : AddressInput := ⟨"9 Park Street", "Kolkata", "West Bengal", "700016", false⟩

/-- A third non-primary address payload. -/
def addrIn3 : AddressInput := ⟨"3 Anna Salai", "Chennai", "Tamil Nadu", "600002", false⟩

/-- An address payload that explicitly requests the primary flag. -/
def addrInP : AddressInput := ⟨"5 Beach Road", "Chennai", "Tamil Nadu", "600001", true⟩

/-- A second explicitly-primary address payload. -/
def addrInP2 : AddressInput := ⟨"8 Civil Lines", "Delhi", "Delhi", "110054", true⟩

/-- One in-memory customer (id 1), created with one supplied address — the
shadowing at index.js line 64/95 means the store keeps no address row. -/
def stOneCust : Store :=
  (createCustomer initialStore custInA [addrIn1] "2025-01-01 10:00:00").2

/-- `stOneCust` after `POST /api/customers/1/addresses`: address id 1,
primary because the customer had no addresses. -/
def stCustAddr : Store := (addAddress stOneCust 1 addrIn1).2

/-- The address row stored in `stCustAddr` (id 2: the counter already
advanced once for the dropped create-customer payload address). -/
def storedAddr1 : Address :=
  { id := 2, customerId := 1, addressLine := "12 MG Road", city := "Hyderabad",
    state := "Telangana", pinCode := "500001", isPrimary := true }

/-- `stCustAddr` after adding a second, non-primary address (id 3). -/
def stTwoAddr : Store := (addAddress stCustAddr 1 addrIn2).2

/-- SQLite state after creating a customer whose two supplied addresses
both request the primary flag — the variant stores both flags as given. -/
def sqlStTwoPrimary : Store :=
  (sqlCreateCustomer initialStore custInA [addrInP, addrInP2] "2025-01-01 10:00:00").2

/-- SQLite state after creating a customer with one primary address. -/
def sqlStOnePrimary : Store :=
  (sqlCreateCustomer initialStore custInA [addrInP] "2025-01-01 10:00:00").2

/-- Two in-memory customers for the sorting runs: `Asha Rao` (id 1) then
`Asha Iyer` (id 2), equal first names. -/
def stTwoCust : Store :=
  (createCustomer (createCustomer initialStore custInA [] "2025-01-01 10:00:00").2
    custInB [] "2025-01-02 10:00:00").2

/-- List query: sort by last name ascending, no filters. -/
def qByLastName : ListQuery := ⟨1, 5, .lastName, .asc, none, none, none⟩

/-- List query: sort by first name ascending, no filters. -/
def qByFirstName : ListQuery := ⟨1, 5, .firstName, .asc, none, none, none⟩

/-- `stTwoCust` after a `GET /api/customers?sortBy=lastName&order=ASC`
call: the in-place sort leaves the store's array as [id 2, id 1]. -/
def stTwoCustSorted : Store := (listCustomers stTwoCust qByLastName).2



/-- The rewrite applied by the in-memory update-address handler to the
found element: supplied fields replace the old ones, id and customerId
are kept, and the primary flag becomes `isPrimary || false`. -/
def updatedWith (a : AddressInput) (x : Address) : Address :=
  { x with addressLine := a.addressLine, city := a.city, state := a.state,
           pinCode := a.pinCode, isPrimary := a.isPrimary }

/-! ### Counting lemmas for the primary flag -/

theorem countPrimaryIn_nil (cid : Nat) : countPrimaryIn [] cid = 0 := rfl

theorem countPrimaryIn_cons (a : Address) (l : List Address) (cid : Nat) :
    countPrimaryIn (a :: l) cid = primContrib a cid + countPrimaryIn l cid := by
  by_cases h : (a.customerId == cid && a.isPrimary) = true
  · simp [countPrimaryIn, primContrib, List.filter_cons, h]
    omega
  · simp [countPrimaryIn, primContrib, List.filter_cons, h]

theorem primContrib_le_one (a : Address) (cid : Nat) : primContrib a cid ≤ 1 := by
  unfold primContrib
  split <;> omega

theorem countPrimaryIn_append (l1 l2 : List Address) (cid : Nat) :
    countPrimaryIn (l1 ++ l2) cid = countPrimaryIn l1 cid + countPrimaryIn l2 cid := by
  simp [countPrimaryIn, List.filter_append]

theorem countPrimaryIn_sublist {l1 l2 : List Address} (h : List.Sublist l1 l2) (cid : Nat) :
    countPrimaryIn l1 cid ≤ countPrimaryIn l2 cid :=
  List.Sublist.length_le (List.Sublist.filter _ h)

theorem clearOne_id (cid : Nat) (x : Address) : (clearOne cid x).id = x.id := by
  unfold clearOne
  split <;> rfl

theorem clearOne_customerId (cid : Nat) (x : Address) :
    (clearOne cid x).customerId = x.customerId := by
  unfold clearOne
  split <;> rfl

theorem primContrib_clearOne_self (cid : Nat) (x : Address) :
    primContrib (clearOne cid x) cid = 0 := by
  unfold clearOne primContrib
  by_cases h : (x.customerId == cid) = true
  · simp [h]
  · simp [h]

theorem primContrib_clearOne_other (cid cid' : Nat) (h : cid' ≠ cid) (x : Address) :
    primContrib (clearOne cid x) cid' = primContrib x cid' := by
  unfold clearOne primContrib
  by_cases hx : (x.customerId == cid) = true
  · rw [beq_iff_eq] at hx
    simp [hx, Ne.symm h]
  · simp [hx]

theorem countPrimaryIn_clear_self (cid : Nat) (l : List Address) :
    countPrimaryIn (clearPrimaryFor cid l) cid = 0 := by
  induction l with
  | nil => rfl
  | cons x xs ih =>
    simp only [clearPrimaryFor, List.map_cons] at ih ⊢
    rw [countPrimaryIn_cons, primContrib_clearOne_self, ih]

theorem countPrimaryIn_clear_other (cid cid' : Nat) (h : cid' ≠ cid) (l : List Address) :
    countPrimaryIn (clearPrimaryFor cid l) cid' = countPrimaryIn l cid' := by
  induction l with
  | nil => rfl
  | cons x xs ih =>
    simp only [clearPrimaryFor, List.map_cons] at ih ⊢
    rw [countPrimaryIn_cons, countPrimaryIn_cons, primContrib_clearOne_other cid cid' h, ih]

/-! ### Decomposition along the first id match -/

theorem find?_addr_split {l : List Address} {aid : Nat} {y : Address}
    (h : l.find? (fun x => x.id == aid) = some y) :
    ∃ l1 l2, l = l1 ++ y :: l2 ∧ (∀ x ∈ l1, (x.id == aid) = false) ∧ (y.id == aid) = true := by
  obtain ⟨hpy, l1, l2, he, hall⟩ := List.find?_eq_some.mp h
  exact ⟨l1, l2, he, fun x hx => by simpa using hall x hx, hpy⟩

theorem replaceFirstAddr_append {l1 : List Address} (l2 : List Address) {aid : Nat} {y : Address}
    (f : Address → Address)
    (hall : ∀ x ∈ l1, (x.id == aid) = false) (hy : (y.id == aid) = true) :
    replaceFirstAddr aid f (l1 ++ y :: l2) = l1 ++ f y :: l2 := by
  induction l1 with
  | nil => simp [replaceFirstAddr, hy]
  | cons x xs ih =>
    have hx := hall x (List.mem_cons_self x xs)
    have ih' := ih (fun z hz => hall z (List.mem_cons_of_mem _ hz))
    simp [replaceFirstAddr, hx, ih']

theorem removeFirstAddr_append {l1 : List Address} (l2 : List Address) {aid : Nat} {y : Address}
    (hall : ∀ x ∈ l1, (x.id == aid) = false) (hy : (y.id == aid) = true) :
    removeFirstAddr aid (l1 ++ y :: l2) = l1 ++ l2 := by
  induction l1 with
  | nil => simp [removeFirstAddr, hy]
  | cons x xs ih =>
    have hx := hall x (List.mem_cons_self x xs)
    have ih' := ih (fun z hz => hall z (List.mem_cons_of_mem _ hz))
    simp [removeFirstAddr, hx, ih']

theorem removeFirstAddr_sublist (aid : Nat) (l : List Address) :
    List.Sublist (removeFirstAddr aid l) l := by
  induction l with
  | nil => exact List.Sublist.refl _
  | cons x xs ih =>
    simp only [removeFirstAddr]
    split
    · exact (List.Sublist.refl xs).cons x
    · exact ih.cons₂ x

theorem find?_append_of_none {l1 : List Address} (l2 : List Address) {p : Address → Bool}
    (hall : ∀ x ∈ l1, p x = false) :
    (l1 ++ l2).find? p = l2.find? p := by
  induction l1 with
  | nil => rfl
  | cons x xs ih =>
    have hx := hall x (List.mem_cons_self x xs)
    simp only [List.cons_append]
    rw [List.find?_cons_of_neg _ (by simp [hx]), ih (fun z hz => hall z (List.mem_cons_of_mem _ hz))]

/-! ### Per-operation preservation of the primary invariant (in-memory) -/

theorem createCustomer_addresses (st : Store) (c : CustomerInput) (addrs : List AddressInput)
    (now : String) : (createCustomer st c addrs now).2.addresses = st.addresses := by
  unfold createCustomer
  split <;> rfl

theorem countPrimaryIn_add_core (l : List Address) (cid cid' : Nat) (sp : Bool) (na : Address)
    (hcust : na.customerId = cid) (hprim : na.isPrimary = sp)
    (h : countPrimaryIn l cid' ≤ 1) :
    countPrimaryIn ((if sp then clearPrimaryFor cid l else l) ++ [na]) cid' ≤ 1 := by
  cases sp with
  | false =>
    rw [if_neg (by decide), countPrimaryIn_append, countPrimaryIn_cons, countPrimaryIn_nil]
    have hz : primContrib na cid' = 0 := by simp [primContrib, hprim]
    omega
  | true =>
    rw [if_pos rfl, countPrimaryIn_append, countPrimaryIn_cons, countPrimaryIn_nil]
    by_cases hc : cid' = cid
    · subst hc
      rw [countPrimaryIn_clear_self]
      have := primContrib_le_one na cid'
      omega
    · rw [countPrimaryIn_clear_other cid cid' hc]
      have hz : primContrib na cid' = 0 := by
        have hne : (na.customerId == cid') = false := by
          rw [hcust]
          exact beq_eq_false_iff_ne.mpr (Ne.symm hc)
        simp [primContrib, hne]
      omega

theorem primaryCount_addAddress_le (st : Store) (cid : Nat) (a : AddressInput) (cid' : Nat)
    (h : primaryCount st cid' ≤ 1) : primaryCount (addAddress st cid a).2 cid' ≤ 1 := by
  unfold primaryCount at h ⊢
  unfold addAddress
  split
  · exact countPrimaryIn_add_core st.addresses cid cid' _ _ rfl rfl h
  · exact h

theorem countPrimaryIn_update_core (l : List Address) (aid : Nat) (a : AddressInput)
    (old : Address) (heq : l.find? (fun x => x.id == aid) = some old) (cid' : Nat)
    (h : countPrimaryIn l cid' ≤ 1) :
    countPrimaryIn
      (replaceFirstAddr aid
        (fun x => { x with addressLine := a.addressLine, city := a.city, state := a.state,
                           pinCode := a.pinCode, isPrimary := a.isPrimary })
        (if a.isPrimary then clearPrimaryFor old.customerId l else l)) cid' ≤ 1 := by
  obtain ⟨l1, l2, he, hall, hid⟩ := find?_addr_split heq
  subst he
  cases hp : a.isPrimary with
  | false =>
    rw [if_neg (by decide)]
    rw [replaceFirstAddr_append l2 _ hall hid]
    rw [countPrimaryIn_append, countPrimaryIn_cons] at h ⊢
    have hz : primContrib
        { old with addressLine := a.addressLine, city := a.city, state := a.state,
                   pinCode := a.pinCode, isPrimary := false } cid' = 0 := by
      simp [primContrib]
    omega
  | true =>
    rw [if_pos rfl]
    have hsplit : clearPrimaryFor old.customerId (l1 ++ old :: l2) =
        clearPrimaryFor old.customerId l1 ++
          clearOne old.customerId old :: clearPrimaryFor old.customerId l2 := by
      simp [clearPrimaryFor]
    rw [hsplit]
    rw [replaceFirstAddr_append (clearPrimaryFor old.customerId l2) _
        (fun z hz => by
          obtain ⟨w, hw, rfl⟩ := List.mem_map.mp hz
          rw [clearOne_id]
          exact hall w hw)
        (by rw [clearOne_id]; exact hid)]
    rw [countPrimaryIn_append, countPrimaryIn_cons]
    by_cases hc : cid' = old.customerId
    · subst hc
      rw [countPrimaryIn_clear_self, countPrimaryIn_clear_self]
      have hb : primContrib
          { id := (clearOne old.customerId old).id,
            customerId := (clearOne old.customerId old).customerId,
            addressLine := a.addressLine, city := a.city, state := a.state,
            pinCode := a.pinCode, isPrimary := true } old.customerId ≤ 1 :=
        primContrib_le_one _ _
      omega
    · rw [countPrimaryIn_clear_other _ _ hc, countPrimaryIn_clear_other _ _ hc]
      have hz : primContrib
          { id := (clearOne old.customerId old).id,
            customerId := (clearOne old.customerId old).customerId,
            addressLine := a.addressLine, city := a.city, state := a.state,
            pinCode := a.pinCode, isPrimary := true } cid' = 0 := by
        have hne : ((clearOne old.customerId old).customerId == cid') = false := by
          rw [clearOne_customerId]
          exact beq_eq_false_iff_ne.mpr (fun hh => hc hh.symm)
        simp [primContrib, hne]
      rw [countPrimaryIn_append, countPrimaryIn_cons] at h
      omega

theorem primaryCount_updateAddress_le (st : Store) (aid : Nat) (a : AddressInput) (cid' : Nat)
    (h : primaryCount st cid' ≤ 1) : primaryCount (updateAddress st aid a).2 cid' ≤ 1 := by
  unfold primaryCount at h ⊢
  unfold updateAddress
  split
  · exact h
  · exact countPrimaryIn_update_core st.addresses aid a _ (by assumption) cid' h

theorem primaryCount_deleteAddress_le (st : Store) (aid : Nat) (cid' : Nat)
    (h : primaryCount st cid' ≤ 1) : primaryCount (deleteAddress st aid).2 cid' ≤ 1 := by
  unfold primaryCount at h ⊢
  unfold deleteAddress
  split
  · exact h
  · rename_i old heq
    show countPrimaryIn
        ((if (st.addresses.filter fun x => x.customerId == old.customerId).length ≤ 1
          then ((Outcome.lastAddress, st) : Outcome × Store)
          else (Outcome.ok, { st with addresses := removeFirstAddr aid st.addresses })).2.addresses)
        cid' ≤ 1
    by_cases hlen : (st.addresses.filter fun x => x.customerId == old.customerId).length ≤ 1
    · rw [if_pos hlen]
      exact h
    · rw [if_neg hlen]
      exact le_trans (countPrimaryIn_sublist (removeFirstAddr_sublist aid st.addresses) cid') h

theorem primaryCount_deleteCustomer_le (st : Store) (cid : Nat) (cid' : Nat)
    (h : primaryCount st cid' ≤ 1) : primaryCount (deleteCustomer st cid).2 cid' ≤ 1 := by
  unfold primaryCount at h ⊢
  unfold deleteCustomer
  split
  · exact le_trans (countPrimaryIn_sublist (List.filter_sublist st.addresses) cid') h
  · exact h

/-! ### Order facts about the comparator -/

theorem charsLt_irrefl : ∀ (x : List Char), charsLt x x = false
  | [] => rfl
  | a :: as => by simp [charsLt, charsLt_irrefl as]

theorem charsLt_trans : ∀ (x y z : List Char),
    charsLt x y = true → charsLt y z = true → charsLt x z = true
  | _, [], _, hxy, _ => by simp [charsLt] at hxy
  | _, _ :: _, [], _, hyz => by simp [charsLt] at hyz
  | [], _ :: _, _ :: _, _, _ => by simp [charsLt]
  | a :: as, b :: bs, c :: cs, hxy, hyz => by
    simp only [charsLt, Bool.or_eq_true, Bool.and_eq_true, decide_eq_true_eq,
      beq_iff_eq] at hxy hyz ⊢
    rcases hxy with h1 | ⟨heq1, hr1⟩
    · rcases hyz with h2 | ⟨heq2, hr2⟩
      · exact Or.inl (lt_trans h1 h2)
      · subst heq2
        exact Or.inl h1
    · subst heq1
      rcases hyz with h2 | ⟨heq2, hr2⟩
      · exact Or.inl h2
      · subst heq2
        exact Or.inr ⟨rfl, charsLt_trans as bs cs hr1 hr2⟩

theorem charsLt_asymm (x y : List Char) (h : charsLt x y = true) : charsLt y x = false := by
  cases hv : charsLt y x with
  | false => rfl
  | true =>
    have hx := charsLt_trans x y x h hv
    rw [charsLt_irrefl x] at hx
    exact absurd hx (by simp)

theorem charsLt_connex : ∀ (x y : List Char),
    charsLt x y = false → charsLt y x = false → x = y
  | [], [], _, _ => rfl
  | [], _ :: _, hxy, _ => by simp [charsLt] at hxy
  | _ :: _, [], _, hyx => by simp [charsLt] at hyx
  | a :: as, b :: bs, hxy, hyx => by
    simp only [charsLt, Bool.or_eq_false_iff, Bool.and_eq_false_iff,
      decide_eq_false_iff_not, beq_eq_false_iff_ne] at hxy hyx
    obtain ⟨hab, hrest⟩ := hxy
    obtain ⟨hba, hrest'⟩ := hyx
    have heq : a = b := le_antisymm (not_lt.mp hba) (not_lt.mp hab)
    subst heq
    have h1 : charsLt as bs = false := by
      rcases hrest with hne | hf
      · exact absurd rfl hne
      · exact hf
    have h2 : charsLt bs as = false := by
      rcases hrest' with hne | hf
      · exact absurd rfl hne
      · exact hf
    rw [charsLt_connex as bs h1 h2]

theorem keepsOrder_asc_iff (f : SortField) (a b : Customer) :
    keepsOrder f .asc a b ↔ charsLt (keyOf f b).data (keyOf f a).data = false := by
  show (!(charsLt (keyOf f b).data (keyOf f a).data)) = true ↔ _
  cases charsLt (keyOf f b).data (keyOf f a).data <;> simp

theorem keepsOrder_desc_iff (f : SortField) (a b : Customer) :
    keepsOrder f .desc a b ↔ charsLt (keyOf f a).data (keyOf f b).data = false := by
  show (!(charsLt (keyOf f a).data (keyOf f b).data)) = true ↔ _
  cases charsLt (keyOf f a).data (keyOf f b).data <;> simp

theorem keepsOrder_total (f : SortField) (o : SortOrder) (a b : Customer) :
    keepsOrder f o a b ∨ keepsOrder f o b a := by
  cases o with
  | asc =>
    by_cases hlt : charsLt (keyOf f b).data (keyOf f a).data = true
    · exact Or.inr ((keepsOrder_asc_iff f b a).mpr (charsLt_asymm _ _ hlt))
    · simp only [Bool.not_eq_true] at hlt
      exact Or.inl ((keepsOrder_asc_iff f a b).mpr hlt)
  | desc =>
    by_cases hlt : charsLt (keyOf f a).data (keyOf f b).data = true
    · exact Or.inr ((keepsOrder_desc_iff f b a).mpr (charsLt_asymm _ _ hlt))
    · simp only [Bool.not_eq_true] at hlt
      exact Or.inl ((keepsOrder_desc_iff f a b).mpr hlt)

theorem keepsOrder_trans (f : SortField) (o : SortOrder) (a b c : Customer)
    (h1 : keepsOrder f o a b) (h2 : keepsOrder f o b c) : keepsOrder f o a c := by
  cases o with
  | asc =>
    rw [keepsOrder_asc_iff] at h1 h2 ⊢
    cases hv : charsLt (keyOf f c).data (keyOf f a).data with
    | false => rfl
    | true =>
      cases hw : charsLt (keyOf f b).data (keyOf f c).data with
      | true =>
        have hc := charsLt_trans _ _ _ hw hv
        rw [h1] at hc
        exact (Bool.false_ne_true hc).elim
      | false =>
        have heq := charsLt_connex _ _ hw h2
        rw [heq] at h1
        rw [h1] at hv
        exact (Bool.false_ne_true hv).elim
  | desc =>
    rw [keepsOrder_desc_iff] at h1 h2 ⊢
    cases hv : charsLt (keyOf f a).data (keyOf f c).data with
    | false => rfl
    | true =>
      cases hw : charsLt (keyOf f c).data (keyOf f b).data with
      | true =>
        have hc := charsLt_trans _ _ _ hv hw
        rw [h1] at hc
        exact (Bool.false_ne_true hc).elim
      | false =>
        have heq := charsLt_connex _ _ hw h2
        rw [← heq] at h1
        rw [h1] at hv
        exact (Bool.false_ne_true hv).elim

/-! ### Claim theorems -/

/-- C1 (amended): in the in-memory variant, every state reachable by any
sequence of create-customer, add-address, update-address, delete-address
and delete-customer operations has at most one primary-flagged address
per customer. -/
theorem reachable_primary_invariant (st : Store) (h : Reachable st) (cid : Nat) :
    primaryCount st cid ≤ 1 := by
  induction h with
  | init => simp [primaryCount, countPrimaryIn, initialStore]
  | create c addrs now _ ih =>
    unfold primaryCount
    rw [createCustomer_addresses]
    exact ih
  | add cid2 a _ ih => exact primaryCount_addAddress_le _ _ _ _ ih
  | update aid a _ ih => exact primaryCount_updateAddress_le _ _ _ _ ih
  | delAddr aid _ ih => exact primaryCount_deleteAddress_le _ _ _ ih
  | delCust cid2 _ ih => exact primaryCount_deleteCustomer_le _ _ _ ih

/-- C1 witness: the invariant instantiated at the concrete reachable state
`stCustAddr` (one customer, one primary address). -/
theorem reachable_primary_invariant_applied :
    Reachable stCustAddr ∧ primaryCount stCustAddr 1 ≤ 1 := by
  have hr : Reachable stCustAddr :=
    Reachable.add 1 addrIn1
      (Reachable.create custInA [addrIn1] "2025-01-01 10:00:00" Reachable.init)
  exact ⟨hr, reachable_primary_invariant stCustAddr hr 1⟩

/-- C1 counterexample: in the SQLite variant a single create-customer call
whose two address payloads both request the primary flag leaves the
customer with TWO primary addresses, so the at-most-one invariant does
not hold over all reachable states of the program. -/
theorem sql_create_two_primary_flags :
    primaryCount sqlStTwoPrimary 1 = 2 ∧ ¬ (primaryCount sqlStTwoPrimary 1 ≤ 1) := by
  decide

/-- C2: evaluating the in-memory create-customer at a concrete request
shows the handler reports success (201, id 1) and persists the customer,
yet persists NO address row — the local `addresses` destructured from the
request body shadows the store array, so the created records are pushed
onto the request body instead of the store.  CreateCustomer is therefore
not atomic in the claimed sense: the customer is stored without its
addresses. -/
theorem createCustomer_success_drops_address_rows :
    (createCustomer initialStore custInA [addrIn1] "2025-01-01 10:00:00").1
        = Outcome.created 1 ∧
    ((createCustomer initialStore custInA [addrIn1] "2025-01-01 10:00:00").2.customers.map
        fun c => c.id) = [1] ∧
    (createCustomer initialStore custInA [addrIn1] "2025-01-01 10:00:00").2.addresses = [] := by
  decide

/-- C3: creating a customer with three addresses, none of which requests
the primary flag: the in-memory variant computes records flagged
[true, false, false] (first-address default, index.js line 92) but stores
none of them; the SQLite variant stores all three rows with the flag
false.  In neither variant does the store end up with exactly the first
supplied address primary. -/
theorem createCustomer_defaults_not_persisted :
    ((buildAddresses 1 1 [addrIn1, addrIn2, addrIn3]).map fun x => x.isPrimary)
        = [true, false, false] ∧
    (createCustomer initialStore custInA [addrIn1, addrIn2, addrIn3]
        "2025-01-01 10:00:00").2.addresses = [] ∧
    ((sqlCreateCustomer initialStore custInA [addrIn1, addrIn2, addrIn3]
        "2025-01-01 10:00:00").2.addresses.map fun x => x.isPrimary)
        = [false, false, false] := by
  decide

/-- C4 (amended): the in-memory AddAddress, called on an existing customer
with the primary flag requested or with the customer owning zero
addresses, answers 201 with the fresh id, stores the new address with the
primary flag set, and clears the flag on every other stored address of
that customer. -/
theorem addAddress_enforces_primary_exclusivity (st : Store) (cid : Nat) (a : AddressInput)
    (hc : (st.customers.find? (fun c => c.id == cid)).isSome = true)
    (hp : a.isPrimary = true ∨ (st.addresses.filter fun x => x.customerId == cid).length = 0) :
    AddAddressExclusive st cid a := by
  have hsp : (a.isPrimary || ((st.addresses.filter fun x => x.customerId == cid).length == 0))
      = true := by
    rcases hp with h | h
    · simp [h]
    · simp [h]
  have e : addAddress st cid a =
      (Outcome.created st.nextAddressId,
        { st with
          addresses := clearPrimaryFor cid st.addresses ++
            [{ id := st.nextAddressId, customerId := cid, addressLine := a.addressLine,
               city := a.city, state := a.state, pinCode := a.pinCode, isPrimary := true }]
          nextAddressId := st.nextAddressId + 1 }) := by
    unfold addAddress
    rw [if_pos hc]
    simp only [hsp, reduceIte]
  unfold AddAddressExclusive
  rw [e]
  refine ⟨rfl, ?_, ?_⟩
  · refine ⟨{ id := st.nextAddressId, customerId := cid, addressLine := a.addressLine,
              city := a.city, state := a.state, pinCode := a.pinCode, isPrimary := true },
            ?_, rfl, rfl, rfl⟩
    simp
  · intro x hx hcust hid
    rcases List.mem_append.mp hx with hmem | hmem
    · obtain ⟨y, hy, rfl⟩ := List.mem_map.mp hmem
      by_cases hyc : (y.customerId == cid) = true
      · simp [clearOne, hyc]
      · exfalso
        apply hyc
        rw [beq_iff_eq]
        rw [clearOne_customerId] at hcust
        exact hcust
    · rw [List.mem_singleton] at hmem
      subst hmem
      exact absurd rfl hid

/-- C4 witness: the exclusivity property instantiated at the concrete
state `stCustAddr` with a second, explicitly-primary address payload. -/
theorem addAddress_enforces_primary_exclusivity_applied :
    (stCustAddr.customers.find? (fun c => c.id == 1)).isSome = true ∧
    (addrInP.isPrimary = true ∨
      (stCustAddr.addresses.filter fun x => x.customerId == 1).length = 0) ∧
    AddAddressExclusive stCustAddr 1 addrInP :=
  ⟨by decide, Or.inl rfl,
    addAddress_enforces_primary_exclusivity stCustAddr 1 addrInP (by decide) (Or.inl rfl)⟩

/-- C4 counterexample: the SQLite AddAddress does not clear siblings.
Starting from a customer whose single address (id 1) is primary, adding a
second explicitly-primary address leaves BOTH addresses primary, so the
"every other address cleared in the same operation" part of the claim is
false for the program's SQLite variant. -/
theorem sqlAddAddress_keeps_sibling_primary :
    ((sqlAddAddress sqlStOnePrimary 1 addrInP2).2.addresses.map
        fun x => (x.id, x.customerId, x.isPrimary)) = [(1, 1, true), (2, 1, true)] ∧
    ¬ (∀ x ∈ (sqlAddAddress sqlStOnePrimary 1 addrInP2).2.addresses,
        x.customerId = 1 → x.id ≠ sqlStOnePrimary.nextAddressId → x.isPrimary = false) := by
  decide

/-- C5: DeleteAddress on an existing address: when it is the sole address
of its customer the call is rejected with the last-address error (HTTP
400) and the whole state is left unchanged; when the customer has at
least two addresses the deletion succeeds (200) and at least one address
of that customer remains stored. -/
theorem deleteAddress_last_address_guard (st : Store) (aid : Nat) (addr : Address)
    (hf : st.addresses.find? (fun x => x.id == aid) = some addr) :
    ((st.addresses.filter fun x => x.customerId == addr.customerId).length = 1 →
      deleteAddress st aid = (Outcome.lastAddress, st) ∧
      (deleteAddress st aid).1.httpStatus = 400) ∧
    (2 ≤ (st.addresses.filter fun x => x.customerId == addr.customerId).length →
      (deleteAddress st aid).1 = Outcome.ok ∧
      1 ≤ ((deleteAddress st aid).2.addresses.filter
            fun x => x.customerId == addr.customerId).length) := by
  constructor
  · intro h1
    have e : deleteAddress st aid = (Outcome.lastAddress, st) := by
      simp only [deleteAddress, hf]
      rw [if_pos (by omega : (st.addresses.filter fun x => x.customerId == addr.customerId).length ≤ 1)]
    exact ⟨e, by rw [e]; rfl⟩
  · intro h2
    have e : deleteAddress st aid =
        (Outcome.ok, { st with addresses := removeFirstAddr aid st.addresses }) := by
      simp only [deleteAddress, hf]
      rw [if_neg (by omega : ¬ ((st.addresses.filter fun x => x.customerId == addr.customerId).length ≤ 1))]
    rw [e]
    refine ⟨rfl, ?_⟩
    obtain ⟨l1, l2, he, hall, hid⟩ := find?_addr_split hf
    rw [he] at h2 ⊢
    rw [removeFirstAddr_append l2 hall hid]
    rw [List.filter_append, List.length_append] at h2 ⊢
    rw [List.filter_cons_of_pos (by simp), List.length_cons] at h2
    omega

/-- C5 witness: the guard instantiated at `stTwoAddr` (customer 1 owning
addresses 2 and 3), deleting address 2. -/
theorem deleteAddress_last_address_guard_applied :
    (stTwoAddr.addresses.find? (fun x => x.id == 2) = some storedAddr1) ∧
    (((stTwoAddr.addresses.filter fun x => x.customerId == storedAddr1.customerId).length = 1 →
        deleteAddress stTwoAddr 2 = (Outcome.lastAddress, stTwoAddr) ∧
        (deleteAddress stTwoAddr 2).1.httpStatus = 400) ∧
      (2 ≤ (stTwoAddr.addresses.filter fun x => x.customerId == storedAddr1.customerId).length →
        (deleteAddress stTwoAddr 2).1 = Outcome.ok ∧
        1 ≤ ((deleteAddress stTwoAddr 2).2.addresses.filter
              fun x => x.customerId == storedAddr1.customerId).length)) :=
  ⟨by decide, deleteAddress_last_address_guard stTwoAddr 2 storedAddr1 (by decide)⟩

/-- C6 (amended): in the in-memory variant, deleting an existing customer
succeeds and leaves no stored address whose customerId is the deleted
id — that variant's cascade removes every owned address in the same
operation.  (The SQLite variant does not deliver this — see the
counterexample below.) -/
theorem deleteCustomer_leaves_no_orphans (st : Store) (cid : Nat)
    (hc : (st.customers.find? (fun c => c.id == cid)).isSome = true) :
    (deleteCustomer st cid).1 = Outcome.ok ∧
    ∀ a ∈ (deleteCustomer st cid).2.addresses, a.customerId ≠ cid := by
  unfold deleteCustomer
  rw [if_pos hc]
  refine ⟨rfl, ?_⟩
  intro a ha
  have hm := List.of_mem_filter ha
  simpa using hm

/-- C6 witness: the cascade instantiated at `stTwoAddr`, deleting
customer 1 who owns addresses 2 and 3. -/
theorem deleteCustomer_leaves_no_orphans_applied :
    (stTwoAddr.customers.find? (fun c => c.id == 1)).isSome = true ∧
    ((deleteCustomer stTwoAddr 1).1 = Outcome.ok ∧
      ∀ a ∈ (deleteCustomer stTwoAddr 1).2.addresses, a.customerId ≠ 1) :=
  ⟨by decide, deleteCustomer_leaves_no_orphans stTwoAddr 1 (by decide)⟩

/-- C6 counterexample: in the SQLite variant the declared cascade is
inert (the connection never enables foreign-key enforcement), so after
deleting customer 1 — who owns one address — the customer row is gone
but the address row with customerId 1 is still stored, orphaned. -/
theorem sqlDeleteCustomer_leaves_orphans :
    (sqlDeleteCustomer sqlStOnePrimary 1).1 = Outcome.ok ∧
    (sqlDeleteCustomer sqlStOnePrimary 1).2.customers = [] ∧
    ((sqlDeleteCustomer sqlStOnePrimary 1).2.addresses.map fun a => a.customerId) = [1] ∧
    ¬ (∀ a ∈ (sqlDeleteCustomer sqlStOnePrimary 1).2.addresses, a.customerId ≠ 1) := by
  decide

/-- C7: creating a customer whose phone number is already stored fails
with the duplicate-phone Conflict (HTTP 400) in both variants, whatever
the address payload, and the store is completely unchanged. -/
theorem createCustomer_duplicate_phone_conflict (st : Store) (c : CustomerInput)
    (addrs : List AddressInput) (now : String)
    (h : ∃ ec ∈ st.customers, ec.phoneNumber = c.phoneNumber) :
    (createCustomer st c addrs now).1 = Outcome.conflict ∧
    (createCustomer st c addrs now).2 = st ∧
    ((createCustomer st c addrs now).1).httpStatus = 400 ∧
    (sqlCreateCustomer st c addrs now).1 = Outcome.conflict ∧
    (sqlCreateCustomer st c addrs now).2 = st := by
  have hf : (st.customers.find? (fun x => x.phoneNumber == c.phoneNumber)).isSome = true := by
    rw [List.find?_isSome]
    obtain ⟨ec, hm, hp⟩ := h
    exact ⟨ec, hm, by rw [beq_iff_eq]; exact hp⟩
  unfold createCustomer sqlCreateCustomer
  rw [if_pos hf, if_pos hf]
  exact ⟨rfl, rfl, rfl, rfl, rfl⟩

/-- C7 witness: the conflict instantiated at `stOneCust`: the stored
customer already has the phone number of `custInA`. -/
theorem createCustomer_duplicate_phone_conflict_applied :
    (∃ ec ∈ stOneCust.customers, ec.phoneNumber = custInA.phoneNumber) ∧
    ((createCustomer stOneCust custInA [addrIn2] "2025-02-02 09:00:00").1 = Outcome.conflict ∧
      (createCustomer stOneCust custInA [addrIn2] "2025-02-02 09:00:00").2 = stOneCust ∧
      ((createCustomer stOneCust custInA [addrIn2] "2025-02-02 09:00:00").1).httpStatus = 400 ∧
      (sqlCreateCustomer stOneCust custInA [addrIn2] "2025-02-02 09:00:00").1 = Outcome.conflict ∧
      (sqlCreateCustomer stOneCust custInA [addrIn2] "2025-02-02 09:00:00").2 = stOneCust) := by
  have h : ∃ ec ∈ stOneCust.customers, ec.phoneNumber = custInA.phoneNumber := by decide
  exact ⟨h, createCustomer_duplicate_phone_conflict stOneCust custInA [addrIn2]
    "2025-02-02 09:00:00" h⟩

/-- C8 (amended): every page returned by the in-memory list route is
sorted by the named sort field in the requested direction (w.r.t. the
route's comparator) and contains only stored customers.  Ties are NOT
broken by insertion order — see the counterexample. -/
theorem listCustomers_page_sorted (st : Store) (q : ListQuery) :
    List.Sorted (keepsOrder q.sortBy q.order) (listCustomers st q).1 ∧
    ∀ c ∈ (listCustomers st q).1, c ∈ st.customers := by
  haveI ht : IsTotal Customer (keepsOrder q.sortBy q.order) :=
    ⟨keepsOrder_total q.sortBy q.order⟩
  haveI htr : IsTrans Customer (keepsOrder q.sortBy q.order) :=
    ⟨keepsOrder_trans q.sortBy q.order⟩
  have hpage : (listCustomers st q).1 =
      ((List.insertionSort (keepsOrder q.sortBy q.order)
        (if (q.city.isSome || q.state.isSome || q.pinCode.isSome) = true
         then st.customers.filter (customerMatches st q) else st.customers)).drop
            ((q.page - 1) * q.limit)).take q.limit := rfl
  constructor
  · rw [hpage]
    exact List.Pairwise.sublist
      (List.Sublist.trans (List.take_sublist _ _) (List.drop_sublist _ _))
      (List.sorted_insertionSort _ _)
  · intro c hc
    rw [hpage] at hc
    have h1 : c ∈ List.insertionSort (keepsOrder q.sortBy q.order)
        (if (q.city.isSome || q.state.isSome || q.pinCode.isSome) = true
         then st.customers.filter (customerMatches st q) else st.customers) :=
      (List.Sublist.trans (List.take_sublist _ _) (List.drop_sublist _ _)).subset hc
    rw [List.mem_insertionSort] at h1
    by_cases hfl : (q.city.isSome || q.state.isSome || q.pinCode.isSome) = true
    · rw [if_pos hfl] at h1
      exact List.mem_of_mem_filter h1
    · rw [if_neg hfl] at h1
      exact h1

/-- C8 counterexample: customers id 1 (Asha Rao) and id 2 (Asha Iyer) are
created in that order; a list call sorted by lastName reorders the shared
array in place to [2, 1]; the next list call sorted by firstName — where
the two customers tie — returns [2, 1], NOT the insertion order [1, 2].
(On two elements every comparison sort agrees with this model, since the
route's comparator answers -1 for the tied pair.) -/
theorem listCustomers_tie_not_insertion_order :
    ((listCustomers stTwoCustSorted qByFirstName).1.map fun c => c.id) = [2, 1] ∧
    (∀ c ∈ (listCustomers stTwoCustSorted qByFirstName).1, c.firstName = "Asha") ∧
    ¬ (((listCustomers stTwoCustSorted qByFirstName).1.map fun c => c.id) = [1, 2]) := by
  decide

/-- C9: updating an existing address with a payload whose isPrimary is
absent/false answers 200 and stores the address with the primary flag
false; if that address was its customer's unique primary address, the
customer is left with zero primary addresses. -/
theorem updateAddress_unsets_primary (st : Store) (aid : Nat) (a : AddressInput) (old : Address)
    (hf : st.addresses.find? (fun x => x.id == aid) = some old)
    (hp : a.isPrimary = false) :
    (updateAddress st aid a).1 = Outcome.ok ∧
    ((updateAddress st aid a).2.addresses.find? (fun x => x.id == aid)).map
        (fun x => x.isPrimary) = some false ∧
    (old.isPrimary = true → primaryCount st old.customerId = 1 →
      primaryCount (updateAddress st aid a).2 old.customerId = 0) := by
  have e : updateAddress st aid a =
      (Outcome.ok,
        { st with
          addresses :=
            replaceFirstAddr aid
              (fun x =>
                { x with addressLine := a.addressLine, city := a.city, state := a.state,
                         pinCode := a.pinCode, isPrimary := a.isPrimary })
              st.addresses }) := by
    simp only [updateAddress, hf]
    rw [if_neg (by rw [hp]; exact Bool.false_ne_true)]
  obtain ⟨l1, l2, he, hall, hid⟩ := find?_addr_split hf
  have ea : (updateAddress st aid a).2.addresses = l1 ++ updatedWith a old :: l2 := by
    rw [e]
    show replaceFirstAddr aid (updatedWith a) st.addresses = _
    rw [he]
    exact replaceFirstAddr_append l2 (updatedWith a) hall hid
  refine ⟨by rw [e], ?_, ?_⟩
  · rw [ea]
    rw [find?_append_of_none _ hall]
    rw [@List.find?_cons_of_pos Address (fun x => x.id == aid) (updatedWith a old) l2
        (by exact hid)]
    simp [updatedWith, hp]
  · intro h1 h2
    unfold primaryCount at h2 ⊢
    rw [ea, countPrimaryIn_append, countPrimaryIn_cons]
    rw [he, countPrimaryIn_append, countPrimaryIn_cons] at h2
    have hcontrib : primContrib old old.customerId = 1 := by
      simp [primContrib, h1]
    have hzero : primContrib (updatedWith a old) old.customerId = 0 := by
      simp [primContrib, updatedWith, hp]
    rw [hzero]
    omega

/-- C9 witness: updating the unique primary address (id 2) of customer 1
in `stCustAddr` with a non-primary payload. -/
theorem updateAddress_unsets_primary_applied :
    (stCustAddr.addresses.find? (fun x => x.id == 2) = some storedAddr1) ∧
    addrIn2.isPrimary = false ∧
    ((updateAddress stCustAddr 2 addrIn2).1 = Outcome.ok ∧
      ((updateAddress stCustAddr 2 addrIn2).2.addresses.find? (fun x => x.id == 2)).map
          (fun x => x.isPrimary) = some false ∧
      (storedAddr1.isPrimary = true → primaryCount stCustAddr storedAddr1.customerId = 1 →
        primaryCount (updateAddress stCustAddr 2 addrIn2).2 storedAddr1.customerId = 0)) :=
  ⟨by decide, rfl, updateAddress_unsets_primary stCustAddr 2 addrIn2 storedAddr1 (by decide) rfl⟩

/-- C10: the cleanup route succeeds from every state, resetting the store
to empty collections with both id counters back at 1, after which the
next created customer is assigned id 1 again — previously used ids are
reassigned. -/
theorem cleanupAll_resets_store (st : Store) (c : CustomerInput) (addrs : List AddressInput)
    (now : String) :
    cleanupAll st = (Outcome.ok, initialStore) ∧
    (createCustomer (cleanupAll st).2 c addrs now).1 = Outcome.created 1 := by
  exact ⟨rfl, rfl⟩
